import Mathlib

/-!
Verification of the single-file Vulkan depth-rendering program (src/main.c).

The development shallowly embeds the host-side logic of the program:
status codes, the depth-format byte-size table, physical-device and
memory-type selection, the recorded command sequence, the fence-wait
loop, the depth decode, and the output formatting.  Machine integers are
modelled as `Nat` (with explicit masks where the C code masks), C floats
as exact rationals, and fallible steps as `Option` or explicit
abort/proceed outcomes.
-/

namespace VulkanIntro

/-- Status codes returned by the API calls the program makes
(the cases of resultString in src/main.c, restricted to the ones the
program can observe). -/
inductive VkResult
  | success
  | notReady
  | timeout
  | eventSet
  | eventReset
  | incomplete
  | errorOutOfHostMemory
  | errorOutOfDeviceMemory
  | errorInitializationFailed
  | errorDeviceLost
  | errorMemoryMapFailed
  | errorUnknown
  deriving DecidableEq, Repr

/-- The depth/stencil formats the program recognises, plus a case for
any other format (the `default` branch of the C switches). -/
inductive VkFormat
  | d16Unorm
  | d16UnormS8Uint
  | d24UnormS8Uint
  | d32Sfloat
  | d32SfloatS8Uint
  | unrecognized
  deriving DecidableEq, Repr

/-- Byte size of one texel of each format (formatSize, src/main.c
lines 100-110); unknown formats map to 0. -/
def formatSize : VkFormat → Nat
  | .d16Unorm => 2
  | .d16UnormS8Uint => 3
  | .d24UnormS8Uint => 4
  | .d32Sfloat => 4
  | .d32SfloatS8Uint => 5
  | .unrecognized => 0

/-- Compile-time image width (IMAGE_WIDTH, src/main.c line 36). -/
def IMAGE_WIDTH : Nat := 20

/-- Compile-time image height (IMAGE_HEIGHT, src/main.c line 37). -/
def IMAGE_HEIGHT : Nat := 20

/-- Decode of one 32-bit raw texel read back from the buffer
(src/main.c lines 902-910): mask out the low 24 bits, divide by
0xFFFFFF to get the unorm depth, and remap the maximum raw value
(the never-written clear value) to 0.  The C code assigns the quotient
first and then overwrites it with 0 in the maximum case, which is the
same function. -/
def decodeDepth (raw : Nat) : ℚ :=
  let unormDepth := raw &&& 0xFFFFFF
  if unormDepth = 0xFFFFFF then 0 else (unormDepth : ℚ) / 0xFFFFFF

/-- C1: the decode extracts the low 24 bits and divides by 0xFFFFFF,
yielding a value in [0,1]; raw 0x000000 decodes to 0, raw 0xFFFFFF
(the field maximum) is remapped to 0, and raw 0x7FFFFF decodes to
within 1e-4 of 0.5. -/
theorem depth_decode_roundtrip :
    decodeDepth 0x000000 = 0 ∧
    decodeDepth 0xFFFFFF = 0 ∧
    |decodeDepth 0x7FFFFF - 1/2| < 1/10000 ∧
    ∀ raw : Nat,
      decodeDepth raw = decodeDepth (raw &&& 0xFFFFFF) ∧
      0 ≤ decodeDepth raw ∧ decodeDepth raw ≤ 1 ∧
      (raw &&& 0xFFFFFF ≠ 0xFFFFFF →
        decodeDepth raw = ((raw &&& 0xFFFFFF : Nat) : ℚ) / 0xFFFFFF) := by
  refine ⟨by simp [decodeDepth], by simp [decodeDepth], ?_, ?_⟩
  · have h : (0x7FFFFF : Nat) &&& 0xFFFFFF = 0x7FFFFF := by decide
    rw [decodeDepth]
    simp only [h]
    rw [abs_sub_lt_iff]
    norm_num
  · intro raw
    have hmask : (raw &&& 0xFFFFFF) &&& 0xFFFFFF = raw &&& 0xFFFFFF := by
      rw [Nat.and_assoc, Nat.and_self]
    have hle : raw &&& 0xFFFFFF ≤ 0xFFFFFF := Nat.and_le_right
    refine ⟨by rw [decodeDepth, decodeDepth]; simp only [hmask], ?_, ?_, ?_⟩
    · rw [decodeDepth]
      split
      · exact le_refl 0
      · positivity
    · rw [decodeDepth]
      split
      · exact zero_le_one
      · rw [div_le_one (by norm_num)]
        exact_mod_cast hle
    · intro hne
      rw [decodeDepth]
      simp only [hne, if_false]

/-- Witness for the hypothesis of depth_decode_roundtrip at raw value
0x123456. -/
theorem depth_decode_roundtrip_witness :
    (0x123456 : Nat) &&& 0xFFFFFF ≠ 0xFFFFFF ∧
    decodeDepth 0x123456 = (((0x123456 : Nat) &&& 0xFFFFFF : Nat) : ℚ) / 0xFFFFFF :=
  ⟨by decide, (depth_decode_roundtrip.2.2.2 0x123456).2.2.2 (by decide)⟩

/-- Acceptance test of the C memory-type loops (src/main.c lines
386-389 and 488-491): bit i of the compatibility mask is set, and the
memory type's property flags contain every required flag. -/
def memoryTypeMatches (memoryTypeBits required flags i : Nat) : Bool :=
  (memoryTypeBits &&& (1 <<< i) != 0) && (flags &&& required == required)

/-- The C for loop starting at index i over the remaining memory-type
property flags: return the first index whose type matches, else none
(src/main.c lines 385-396 and 486-498; reaching the end of the table
is the failure case checked right after each loop). -/
def findMemoryTypeFrom (memoryTypeBits required : Nat) : List Nat → Nat → Option Nat
  | [], _ => none
  | flags :: rest, i =>
    if memoryTypeMatches memoryTypeBits required flags i then some i
    else findMemoryTypeFrom memoryTypeBits required rest (i + 1)

/-- Memory-type selection over the whole property-flag table, starting
at index 0 as the C loops do. -/
def findMemoryType (memoryTypeBits required : Nat) (memoryTypes : List Nat) : Option Nat :=
  findMemoryTypeFrom memoryTypeBits required memoryTypes 0

/-- The specification's suitability notion for index i: the bit for i
is set in the compatibility mask, and the property flags of memory
type i are a superset of the required set (bitwise, via testBit). -/
def MemoryTypeSuitable (memoryTypeBits required : Nat) (memoryTypes : List Nat) (i : Nat) : Prop :=
  memoryTypeBits.testBit i = true ∧
  ∀ b, required.testBit b = true → (memoryTypes.getD i 0).testBit b = true

lemma and_shiftLeft_one_ne_zero (bits i : Nat) :
    bits &&& (1 <<< i) ≠ 0 ↔ bits.testBit i = true := by
  rw [Nat.shiftLeft_eq, one_mul, Nat.and_two_pow]
  have hpos : 0 < 2 ^ i := Nat.pos_pow_of_pos i (by norm_num)
  cases h : bits.testBit i
  · simp
  · simp [hpos.ne']

lemma and_eq_right_iff_superset (flags required : Nat) :
    flags &&& required = required ↔
      ∀ b, required.testBit b = true → flags.testBit b = true := by
  constructor
  · intro h b hb
    have hcong := congrArg (fun n => n.testBit b) h
    simp only [Nat.testBit_land] at hcong
    rw [hb, Bool.and_true] at hcong
    exact hcong
  · intro h
    apply Nat.eq_of_testBit_eq
    intro b
    rw [Nat.testBit_land]
    cases hb : required.testBit b
    · simp
    · simp [h b hb]

lemma memoryTypeMatches_iff (bits required : Nat) (types : List Nat) (i : Nat) :
    memoryTypeMatches bits required (types.getD i 0) i = true ↔
      MemoryTypeSuitable bits required types i := by
  unfold memoryTypeMatches MemoryTypeSuitable
  rw [Bool.and_eq_true, bne_iff_ne, beq_iff_eq,
    and_shiftLeft_one_ne_zero, and_eq_right_iff_superset]

lemma findMemoryTypeFrom_some_iff (bits required : Nat) :
    ∀ (types : List Nat) (s i : Nat),
      findMemoryTypeFrom bits required types s = some i ↔
        ∃ k, k < types.length ∧ i = s + k ∧
          memoryTypeMatches bits required (types.getD k 0) (s + k) = true ∧
          ∀ j, j < k → memoryTypeMatches bits required (types.getD j 0) (s + j) = false
  | [], s, i => by simp [findMemoryTypeFrom]
  | flags :: rest, s, i => by
    rw [findMemoryTypeFrom]
    by_cases hhead : memoryTypeMatches bits required flags s = true
    · rw [if_pos hhead]
      constructor
      · intro h
        refine ⟨0, by simp, by simpa using (Option.some_inj.mp h).symm, by simpa using hhead, ?_⟩
        intro j hj
        omega
      · rintro ⟨k, hk, hi, hmatch, hbefore⟩
        rcases Nat.eq_zero_or_pos k with hk0 | hkpos
        · subst hk0; simp [hi]
        · have h0 := hbefore 0 hkpos
          rw [List.getD_cons_zero, Nat.add_zero] at h0
          rw [hhead] at h0
          exact absurd h0 (by simp)
    · rw [if_neg hhead]
      rw [findMemoryTypeFrom_some_iff bits required rest (s + 1) i]
      constructor
      · rintro ⟨k, hk, hi, hmatch, hbefore⟩
        refine ⟨k + 1, by simpa using Nat.succ_lt_succ hk, by omega, ?_, ?_⟩
        · rw [List.getD_cons_succ]
          have : s + 1 + k = s + (k + 1) := by omega
          rw [this] at hmatch
          exact hmatch
        · intro j hj
          cases j with
          | zero =>
            rw [List.getD_cons_zero, Nat.add_zero]
            exact Bool.not_eq_true _ ▸ (by simpa using hhead)
          | succ j =>
            rw [List.getD_cons_succ]
            have := hbefore j (by omega)
            have harith : s + 1 + j = s + (j + 1) := by omega
            rw [harith] at this
            exact this
      · rintro ⟨k, hk, hi, hmatch, hbefore⟩
        cases k with
        | zero =>
          rw [List.getD_cons_zero, Nat.add_zero] at hmatch
          exact absurd hmatch hhead
        | succ k =>
          refine ⟨k, by simpa using Nat.lt_of_succ_lt_succ hk, by omega, ?_, ?_⟩
          · rw [List.getD_cons_succ] at hmatch
            have harith : s + (k + 1) = s + 1 + k := by omega
            rw [harith] at hmatch
            exact hmatch
          · intro j hj
            have := hbefore (j + 1) (by omega)
            rw [List.getD_cons_succ] at this
            have harith : s + (j + 1) = s + 1 + j := by omega
            rw [harith] at this
            exact this

lemma findMemoryTypeFrom_none_iff (bits required : Nat) :
    ∀ (types : List Nat) (s : Nat),
      findMemoryTypeFrom bits required types s = none ↔
        ∀ k, k < types.length →
          memoryTypeMatches bits required (types.getD k 0) (s + k) = false
  | [], s => by simp [findMemoryTypeFrom]
  | flags :: rest, s => by
    rw [findMemoryTypeFrom]
    by_cases hhead : memoryTypeMatches bits required flags s = true
    · rw [if_pos hhead]
      constructor
      · intro h
        exact absurd h (Option.some_ne_none s)
      · intro hall
        exfalso
        have h0 := hall 0 (by simp)
        rw [List.getD_cons_zero, Nat.add_zero, hhead] at h0
        exact absurd h0 (by simp)
    · rw [if_neg hhead]
      rw [findMemoryTypeFrom_none_iff bits required rest (s + 1)]
      constructor
      · intro hall k hk
        cases k with
        | zero =>
          rw [List.getD_cons_zero, Nat.add_zero]
          simpa using hhead
        | succ k =>
          rw [List.getD_cons_succ]
          simp only [List.length_cons] at hk
          have := hall k (by omega)
          have harith : s + (k + 1) = s + 1 + k := by omega
          rw [harith]
          exact this
      · intro hall k hk
        have := hall (k + 1) (by simpa using Nat.succ_lt_succ hk)
        rw [List.getD_cons_succ] at this
        have harith : s + 1 + k = s + (k + 1) := by omega
        rw [harith]
        exact this

/-- C2: memory-type selection returns the smallest index whose bit is
set in the compatibility mask and whose property flags are a superset
of the required set, and fails (returns none) exactly when no index of
the table qualifies.  Selection is a pure function of its inputs, so
repeated calls with identical inputs give identical results. -/
theorem memory_type_selection (bits required : Nat) (types : List Nat) :
    (∀ i, findMemoryType bits required types = some i ↔
        i < types.length ∧ MemoryTypeSuitable bits required types i ∧
          ∀ j, j < i → ¬ MemoryTypeSuitable bits required types j) ∧
    (findMemoryType bits required types = none ↔
        ∀ i, i < types.length → ¬ MemoryTypeSuitable bits required types i) := by
  constructor
  · intro i
    rw [findMemoryType, findMemoryTypeFrom_some_iff]
    constructor
    · rintro ⟨k, hk, hi, hmatch, hbefore⟩
      rw [Nat.zero_add] at hi
      rw [hi]
      rw [Nat.zero_add] at hmatch
      refine ⟨hk, (memoryTypeMatches_iff bits required types k).mp hmatch, ?_⟩
      intro j hj hsuit
      have := hbefore j hj
      rw [Nat.zero_add] at this
      rw [(memoryTypeMatches_iff bits required types j).mpr hsuit] at this
      exact absurd this (by simp)
    · rintro ⟨hlen, hsuit, hbefore⟩
      refine ⟨i, hlen, by omega, ?_, ?_⟩
      · rw [Nat.zero_add]
        exact (memoryTypeMatches_iff bits required types i).mpr hsuit
      · intro j hj
        rw [Nat.zero_add]
        cases hm : memoryTypeMatches bits required (types.getD j 0) j
        · rfl
        · exact absurd ((memoryTypeMatches_iff bits required types j).mp hm)
            (hbefore j hj)
  · rw [findMemoryType, findMemoryTypeFrom_none_iff]
    constructor
    · intro hall i hi hsuit
      have := hall i hi
      rw [Nat.zero_add] at this
      rw [(memoryTypeMatches_iff bits required types i).mpr hsuit] at this
      exact absurd this (by simp)
    · intro hall k hk
      rw [Nat.zero_add]
      cases hm : memoryTypeMatches bits required (types.getD k 0) k
      · rfl
      · exact absurd ((memoryTypeMatches_iff bits required types k).mp hm)
          (hall k hk)

/-- Witness for memory_type_selection: with compatibility mask 0b110,
required flags 0b101 and table [0b001, 0b111, 0b101], index 1 is the
smallest qualifying index and is selected. -/
theorem memory_type_selection_witness :
    findMemoryType 6 5 [1, 7, 5] = some 1 := by
  refine ((memory_type_selection 6 5 [1, 7, 5]).1 1).2 ⟨by norm_num, ⟨by decide, ?_⟩, ?_⟩
  · exact (and_eq_right_iff_superset 7 5).1 (by decide)
  · intro j hj
    interval_cases j
    rintro ⟨hbit, -⟩
    exact absurd hbit (by decide)

/-- Host allocation size for the shader code (src/main.c line 614):
malloc of 1 + 4 * (vertexShaderCodeSize / 4) bytes, with Nat division
truncating as size_t division does. -/
def vertexShaderBufferSize (vertexShaderCodeSize : Nat) : Nat :=
  1 + 4 * (vertexShaderCodeSize / 4)

/-- C10 counterexample: a shader file of 5 bytes has length not a
multiple of 4, yet the allocation is 1 + 4 * (5 / 4) = 5 bytes, so the
fread of 5 bytes does not write past the end of the buffer, contrary
to the claim that every non-multiple-of-4 length overflows. -/
theorem shader_read_counterexample :
    (5 : Nat) % 4 ≠ 0 ∧ vertexShaderBufferSize 5 = 5 ∧
      5 ≤ vertexShaderBufferSize 5 := by decide

/-- C10 amended: the fread of the whole file stays within the
allocated buffer exactly when the file length is 0 or 1 modulo 4 (in
particular for every multiple of 4); for lengths that are 2 or 3
modulo 4 the read extends past the end of the allocation. -/
theorem shader_buffer_bounds (size : Nat) :
    (size % 4 ≤ 1 → size ≤ vertexShaderBufferSize size) ∧
    (2 ≤ size % 4 → vertexShaderBufferSize size < size) := by
  unfold vertexShaderBufferSize
  omega

/-- Witness for shader_buffer_bounds at sizes 8 (a multiple of 4, read
in bounds) and 6 (2 mod 4, read past the end). -/
theorem shader_buffer_bounds_witness :
    8 ≤ vertexShaderBufferSize 8 ∧ vertexShaderBufferSize 6 < 6 :=
  ⟨(shader_buffer_bounds 8).1 (by decide), (shader_buffer_bounds 6).2 (by decide)⟩

/-- Size of the pixel readback buffer computed on src/main.c line 463:
formatSize of the image format times width times height. -/
def pixelReadbackBufferSize (format : VkFormat) : Nat :=
  formatSize format * IMAGE_WIDTH * IMAGE_HEIGHT

/-- The check on src/main.c lines 464-468: the program aborts exactly
when the computed readback-buffer size is zero. -/
def formatSizeCheckAborts (format : VkFormat) : Bool :=
  pixelReadbackBufferSize format == 0

/-- The top-level steps of main in source order (src/main.c lines
174-981), used to settle ordering claims about when checks happen. -/
inductive Step
  | createInstance
  | enumeratePhysicalDevices
  | selectPhysicalDevice
  | createDevice
  | createImage
  | findImageMemoryType
  | allocateImageMemory
  | bindImageMemory
  | createImageView
  | checkFormatSize
  | createBuffer
  | findBufferMemoryType
  | allocateBufferMemory
  | bindBufferMemory
  | createRenderPass
  | createFramebuffer
  | loadShaderCode
  | createShaderModule
  | createPipelineLayout
  | createGraphicsPipeline
  | createCommandPool
  | allocateCommandBuffer
  | recordCommandBuffer
  | createFence
  | queueSubmit
  | waitForFences
  | readbackPixels
  | decodeDepthValues
  | writeOutputFile
  | cleanup
  deriving DecidableEq, Repr

/-- The order in which main performs its steps (src/main.c): the
format-size check sits at line 463-468, after the image and its
device memory are created, allocated and bound (lines 366-416) and
before the readback buffer is created (line 477). -/
def mainSteps : List Step :=
  [.createInstance,
   .enumeratePhysicalDevices,
   .selectPhysicalDevice,
   .createDevice,
   .createImage,
   .findImageMemoryType,
   .allocateImageMemory,
   .bindImageMemory,
   .createImageView,
   .checkFormatSize,
   .createBuffer,
   .findBufferMemoryType,
   .allocateBufferMemory,
   .bindBufferMemory,
   .createRenderPass,
   .createFramebuffer,
   .loadShaderCode,
   .createShaderModule,
   .createPipelineLayout,
   .createGraphicsPipeline,
   .createCommandPool,
   .allocateCommandBuffer,
   .recordCommandBuffer,
   .createFence,
   .queueSubmit,
   .waitForFences,
   .readbackPixels,
   .decodeDepthValues,
   .writeOutputFile,
   .cleanup]

/-- C4 counterexample: device work (the image device-memory
allocation) happens strictly before the format-size check in main, so
a zero format size is not detected before device allocation begins. -/
theorem format_check_after_image_allocation :
    Step.allocateImageMemory ∈ mainSteps ∧ Step.checkFormatSize ∈ mainSteps ∧
    mainSteps.indexOf Step.allocateImageMemory < mainSteps.indexOf Step.checkFormatSize := by
  decide

/-- C4 amended: the byte-size lookup returns the documented values
(2, 3, 4, 4, 5) on the recognized formats and 0 on an unrecognized
format; a zero size makes the program abort at the check, which runs
before the readback buffer is created or its device memory allocated
(but after the image's device memory is allocated). -/
theorem format_size_lookup :
    formatSize .d16Unorm = 2 ∧ formatSize .d16UnormS8Uint = 3 ∧
    formatSize .d24UnormS8Uint = 4 ∧ formatSize .d32Sfloat = 4 ∧
    formatSize .d32SfloatS8Uint = 5 ∧ formatSize .unrecognized = 0 ∧
    (∀ format, formatSizeCheckAborts format = true ↔ formatSize format = 0) ∧
    mainSteps.indexOf Step.checkFormatSize < mainSteps.indexOf Step.createBuffer ∧
    mainSteps.indexOf Step.checkFormatSize < mainSteps.indexOf Step.allocateBufferMemory := by
  refine ⟨rfl, rfl, rfl, rfl, rfl, rfl, ?_, by decide, by decide⟩
  intro format
  cases format <;> decide

/-- Witness for format_size_lookup: an unrecognized format makes the
check abort. -/
theorem format_size_lookup_witness :
    formatSizeCheckAborts VkFormat.unrecognized = true :=
  (format_size_lookup.2.2.2.2.2.2.1 VkFormat.unrecognized).2 rfl

/-- Outcome of one iteration of the fence-wait loop: the loop exits on
success, and otherwise logs the status and retries (the spec's
taxonomy also has a fatal abort, which the loop would need for hard
errors). -/
inductive FenceWaitAction
  | success
  | retryLog
  | abortFatal
  deriving DecidableEq, Repr

/-- One iteration of the while loop on src/main.c lines 868-870: the
loop condition is code != VK_SUCCESS, so the loop exits on success and
on every other status prints the status string and retries; no status
aborts. -/
def fenceWaitStep (code : VkResult) : FenceWaitAction :=
  if code = .success then .success else .retryLog

/-- The fence-wait loop run against the sequence of statuses the
i-th vkWaitForFences call returns, starting at call index i with the
given fuel; returns the 1-based iteration count of the first call
returning success, or none if fuel runs out first.  The C loop itself
is unbounded; fuel only makes the model total. -/
def fenceWaitFrom (results : Nat → VkResult) (i : Nat) : Nat → Option Nat
  | 0 => none
  | fuel + 1 =>
    if results i = .success then some (i + 1)
    else fenceWaitFrom results (i + 1) fuel

/-- The fence-wait loop from the first call. -/
def fenceWaitIterations (results : Nat → VkResult) (fuel : Nat) : Option Nat :=
  fenceWaitFrom results 0 fuel

lemma fenceWaitFrom_succeeds (results : Nat → VkResult) :
    ∀ (fuel s k : Nat), k < fuel →
      (∀ i, s ≤ i → i < s + k → results i ≠ VkResult.success) →
      results (s + k) = VkResult.success →
      fenceWaitFrom results s fuel = some (s + k + 1)
  | 0, s, k => by
    intro hk
    exact absurd hk (by omega)
  | fuel + 1, s, k => by
    intro hk hne hsucc
    rw [fenceWaitFrom]
    cases k with
    | zero =>
      rw [Nat.add_zero] at hsucc
      rw [if_pos hsucc]
    | succ k =>
      have hne0 : results s ≠ VkResult.success := hne s le_rfl (by omega)
      rw [if_neg hne0]
      have harith : s + 1 + k = s + (k + 1) := by omega
      have hrec := fenceWaitFrom_succeeds results fuel (s + 1) k (by omega)
        (fun i hi hlt => hne i (by omega) (by omega)) (by rw [harith]; exact hsucc)
      rw [hrec, harith]

/-- C3 counterexample: a vkWaitForFences status of
VK_ERROR_DEVICE_LOST (an error other than timeout) is logged and
retried by the loop, not treated as a fatal abort, because the loop
condition on src/main.c line 868 only distinguishes success from
everything else. -/
theorem fence_wait_counterexample :
    fenceWaitStep VkResult.errorDeviceLost = FenceWaitAction.retryLog ∧
    FenceWaitAction.retryLog ≠ FenceWaitAction.abortFatal := by decide

/-- C3 amended: every non-success status (timeout or error alike) is
logged and retried without aborting, success exits the loop, and for a
fence that first returns success on call k+1 after k non-success
iterations the loop reports success exactly at iteration k+1. -/
theorem fence_wait_loop (results : Nat → VkResult) (k fuel : Nat)
    (htimeout : ∀ i, i < k → results i = VkResult.timeout)
    (hsuccess : results k = VkResult.success)
    (hfuel : k < fuel) :
    fenceWaitIterations results fuel = some (k + 1) ∧
    (∀ m, fenceWaitIterations results fuel = some m → m = k + 1) ∧
    (∀ code, code ≠ VkResult.success → fenceWaitStep code = FenceWaitAction.retryLog) ∧
    fenceWaitStep VkResult.success = FenceWaitAction.success := by
  have hmain : fenceWaitIterations results fuel = some (k + 1) := by
    have := fenceWaitFrom_succeeds results fuel 0 k hfuel
      (fun i hi hlt => by
        rw [htimeout i (by omega)]
        intro hcontr
        exact absurd hcontr (by decide))
      (by simpa using hsuccess)
    simpa [fenceWaitIterations] using this
  refine ⟨hmain, ?_, ?_, rfl⟩
  · intro m hm
    rw [hmain] at hm
    exact (Option.some_inj.mp hm).symm
  · intro code hcode
    rw [fenceWaitStep, if_neg hcode]

/-- Witness for fence_wait_loop: two timeout iterations followed by
success make the loop report success at iteration 3. -/
theorem fence_wait_loop_witness :
    fenceWaitIterations
      (fun n => if n < 2 then VkResult.timeout else VkResult.success) 4 = some 3 :=
  (fence_wait_loop (fun n => if n < 2 then VkResult.timeout else VkResult.success)
    2 4 (by decide) (by decide) (by decide)).1

/-- Physical device types the program can observe
(VkPhysicalDeviceType). -/
inductive VkPhysicalDeviceType
  | other
  | integratedGpu
  | discreteGpu
  | virtualGpu
  | cpu
  deriving DecidableEq, Repr

/-- Queue capability flag for graphics commands
(VK_QUEUE_GRAPHICS_BIT = 0x1). -/
def VK_QUEUE_GRAPHICS_BIT : Nat := 1

/-- Queue capability flag for transfer commands
(VK_QUEUE_TRANSFER_BIT = 0x4). -/
def VK_QUEUE_TRANSFER_BIT : Nat := 4

/-- What the program reads off one physical device: its type and the
capability flag word of each queue family, in family order. -/
structure PhysicalDevice where
  deviceType : VkPhysicalDeviceType
  queueFamilyFlags : List Nat
  deriving DecidableEq, Repr

/-- Acceptance test on the device type (src/main.c lines 251-256): a
device passes only when it is a discrete or an integrated GPU. -/
def isGpu (t : VkPhysicalDeviceType) : Bool :=
  t == .discreteGpu || t == .integratedGpu

/-- The inner-loop test on src/main.c line 264: the family's flags
must contain both the graphics and the transfer bit. -/
def queueFamilySupportsGraphicsAndTransfer (flags : Nat) : Bool :=
  (flags &&& VK_QUEUE_GRAPHICS_BIT != 0) && (flags &&& VK_QUEUE_TRANSFER_BIT != 0)

/-- The inner for loop on src/main.c lines 261-267, scanning families
from index s: first family whose flags pass the test. -/
def findQueueFamilyFrom : List Nat → Nat → Option Nat
  | [], _ => none
  | flags :: rest, s =>
    if queueFamilySupportsGraphicsAndTransfer flags then some s
    else findQueueFamilyFrom rest (s + 1)

/-- Queue-family search over the whole family table, from index 0. -/
def findQueueFamily (families : List Nat) : Option Nat :=
  findQueueFamilyFrom families 0

/-- The per-device body of the outer loop (src/main.c lines 247-275):
a non-GPU device is skipped (continue on line 255), and a GPU device
yields its first suitable queue-family index, or is skipped when the
inner loop ran to the end (continue on line 271). -/
def deviceQueueFamily (d : PhysicalDevice) : Option Nat :=
  if isGpu d.deviceType then findQueueFamily d.queueFamilyFlags else none

/-- The outer loop over physical devices starting at index s: the
first device that yields a queue family is selected together with that
family index (break on line 274); running past the end is the failure
checked on lines 276-280. -/
def selectPhysicalDeviceFrom : List PhysicalDevice → Nat → Option (Nat × Nat)
  | [], _ => none
  | d :: rest, s =>
    match deviceQueueFamily d with
    | some q => some (s, q)
    | none => selectPhysicalDeviceFrom rest (s + 1)

/-- Device selection over the enumerated device list, from index 0. -/
def selectPhysicalDevice (devices : List PhysicalDevice) : Option (Nat × Nat) :=
  selectPhysicalDeviceFrom devices 0

/-- Default device used only to give List.getD a junk value off the
end of the list; characterizations below never look there. -/
def defaultPhysicalDevice : PhysicalDevice :=
  ⟨.other, []⟩

/-- The specification's suitability notion for a queue family: the
capability flags include graphics (bit 0) and transfer (bit 2). -/
def SuitableQueueFlags (flags : Nat) : Prop :=
  flags.testBit 0 = true ∧ flags.testBit 2 = true

/-- The specification's notion of selecting queue family q on a
device: q is the first index in the family table whose flags are
suitable. -/
def FirstSuitableFamily (families : List Nat) (q : Nat) : Prop :=
  q < families.length ∧ SuitableQueueFlags (families.getD q 0) ∧
  ∀ r, r < q → ¬ SuitableQueueFlags (families.getD r 0)

/-- The specification's notion of a device failing both filters: it is
not a GPU, or none of its queue families is suitable. -/
def DeviceRejected (d : PhysicalDevice) : Prop :=
  isGpu d.deviceType = false ∨
  ∀ q, q < d.queueFamilyFlags.length →
    ¬ SuitableQueueFlags (d.queueFamilyFlags.getD q 0)

lemma supportsGraphicsAndTransfer_iff (flags : Nat) :
    queueFamilySupportsGraphicsAndTransfer flags = true ↔ SuitableQueueFlags flags := by
  have h1 : flags &&& VK_QUEUE_GRAPHICS_BIT ≠ 0 ↔ flags.testBit 0 = true := by
    have h := and_shiftLeft_one_ne_zero flags 0
    rw [VK_QUEUE_GRAPHICS_BIT]
    exact h
  have h4 : flags &&& VK_QUEUE_TRANSFER_BIT ≠ 0 ↔ flags.testBit 2 = true := by
    have := and_shiftLeft_one_ne_zero flags 2
    simpa [VK_QUEUE_TRANSFER_BIT] using this
  unfold queueFamilySupportsGraphicsAndTransfer SuitableQueueFlags
  rw [Bool.and_eq_true, bne_iff_ne, bne_iff_ne, h1, h4]

lemma findQueueFamilyFrom_some_iff :
    ∀ (families : List Nat) (s q : Nat),
      findQueueFamilyFrom families s = some q ↔
        ∃ k, k < families.length ∧ q = s + k ∧
          queueFamilySupportsGraphicsAndTransfer (families.getD k 0) = true ∧
          ∀ j, j < k →
            queueFamilySupportsGraphicsAndTransfer (families.getD j 0) = false
  | [], s, q => by simp [findQueueFamilyFrom]
  | flags :: rest, s, q => by
    rw [findQueueFamilyFrom]
    by_cases hhead : queueFamilySupportsGraphicsAndTransfer flags = true
    · rw [if_pos hhead]
      constructor
      · intro h
        exact ⟨0, by simp, by simpa using (Option.some_inj.mp h).symm,
          by simpa using hhead, fun j hj => absurd hj (by omega)⟩
      · rintro ⟨k, hk, hq, hmatch, hbefore⟩
        rcases Nat.eq_zero_or_pos k with hk0 | hkpos
        · subst hk0; simp [hq]
        · have h0 := hbefore 0 hkpos
          rw [List.getD_cons_zero, hhead] at h0
          exact absurd h0 (by simp)
    · rw [if_neg hhead]
      rw [findQueueFamilyFrom_some_iff rest (s + 1) q]
      constructor
      · rintro ⟨k, hk, hq, hmatch, hbefore⟩
        refine ⟨k + 1, by simp only [List.length_cons]; omega, by omega,
          by rw [List.getD_cons_succ]; exact hmatch, ?_⟩
        intro j hj
        cases j with
        | zero =>
          rw [List.getD_cons_zero]
          simpa using hhead
        | succ j =>
          rw [List.getD_cons_succ]
          exact hbefore j (by omega)
      · rintro ⟨k, hk, hq, hmatch, hbefore⟩
        cases k with
        | zero =>
          rw [List.getD_cons_zero] at hmatch
          exact absurd hmatch hhead
        | succ k =>
          simp only [List.length_cons] at hk
          refine ⟨k, by omega, by omega, ?_, ?_⟩
          · rw [List.getD_cons_succ] at hmatch
            exact hmatch
          · intro j hj
            have := hbefore (j + 1) (by omega)
            rw [List.getD_cons_succ] at this
            exact this

lemma findQueueFamilyFrom_none_iff :
    ∀ (families : List Nat) (s : Nat),
      findQueueFamilyFrom families s = none ↔
        ∀ k, k < families.length →
          queueFamilySupportsGraphicsAndTransfer (families.getD k 0) = false
  | [], s => by simp [findQueueFamilyFrom]
  | flags :: rest, s => by
    rw [findQueueFamilyFrom]
    by_cases hhead : queueFamilySupportsGraphicsAndTransfer flags = true
    · rw [if_pos hhead]
      constructor
      · intro h
        exact absurd h (Option.some_ne_none s)
      · intro hall
        exfalso
        have h0 := hall 0 (by simp)
        rw [List.getD_cons_zero, hhead] at h0
        exact absurd h0 (by simp)
    · rw [if_neg hhead]
      rw [findQueueFamilyFrom_none_iff rest (s + 1)]
      constructor
      · intro hall k hk
        cases k with
        | zero =>
          rw [List.getD_cons_zero]
          simpa using hhead
        | succ k =>
          rw [List.getD_cons_succ]
          simp only [List.length_cons] at hk
          exact hall k (by omega)
      · intro hall k hk
        have := hall (k + 1) (by simp only [List.length_cons]; omega)
        rw [List.getD_cons_succ] at this
        exact this

lemma findQueueFamily_some_iff (families : List Nat) (q : Nat) :
    findQueueFamily families = some q ↔ FirstSuitableFamily families q := by
  rw [findQueueFamily, findQueueFamilyFrom_some_iff]
  unfold FirstSuitableFamily
  constructor
  · rintro ⟨k, hk, hq, hmatch, hbefore⟩
    rw [Nat.zero_add] at hq
    subst hq
    refine ⟨hk, (supportsGraphicsAndTransfer_iff _).mp hmatch, ?_⟩
    intro r hr hsuit
    have := hbefore r hr
    rw [(supportsGraphicsAndTransfer_iff _).mpr hsuit] at this
    exact absurd this (by simp)
  · rintro ⟨hq, hsuit, hbefore⟩
    refine ⟨q, hq, by omega, (supportsGraphicsAndTransfer_iff _).mpr hsuit, ?_⟩
    intro j hj
    cases hm : queueFamilySupportsGraphicsAndTransfer (families.getD j 0)
    · rfl
    · exact absurd ((supportsGraphicsAndTransfer_iff _).mp hm) (hbefore j hj)

lemma findQueueFamily_none_iff (families : List Nat) :
    findQueueFamily families = none ↔
      ∀ q, q < families.length → ¬ SuitableQueueFlags (families.getD q 0) := by
  rw [findQueueFamily, findQueueFamilyFrom_none_iff]
  constructor
  · intro hall q hq hsuit
    have := hall q hq
    rw [(supportsGraphicsAndTransfer_iff _).mpr hsuit] at this
    exact absurd this (by simp)
  · intro hall k hk
    cases hm : queueFamilySupportsGraphicsAndTransfer (families.getD k 0)
    · rfl
    · exact absurd ((supportsGraphicsAndTransfer_iff _).mp hm) (hall k hk)

lemma deviceQueueFamily_some_iff (d : PhysicalDevice) (q : Nat) :
    deviceQueueFamily d = some q ↔
      isGpu d.deviceType = true ∧ FirstSuitableFamily d.queueFamilyFlags q := by
  unfold deviceQueueFamily
  by_cases hg : isGpu d.deviceType = true
  · rw [if_pos hg, findQueueFamily_some_iff]
    simp [hg]
  · rw [if_neg hg]
    simp [hg]

lemma deviceQueueFamily_none_iff (d : PhysicalDevice) :
    deviceQueueFamily d = none ↔ DeviceRejected d := by
  unfold deviceQueueFamily DeviceRejected
  by_cases hg : isGpu d.deviceType = true
  · rw [if_pos hg, findQueueFamily_none_iff]
    simp [hg]
  · rw [if_neg hg]
    simp [Bool.not_eq_true] at hg
    simp [hg]

lemma selectPhysicalDeviceFrom_some_iff :
    ∀ (devices : List PhysicalDevice) (s i q : Nat),
      selectPhysicalDeviceFrom devices s = some (i, q) ↔
        ∃ k, k < devices.length ∧ i = s + k ∧
          deviceQueueFamily (devices.getD k defaultPhysicalDevice) = some q ∧
          ∀ j, j < k →
            deviceQueueFamily (devices.getD j defaultPhysicalDevice) = none
  | [], s, i, q => by simp [selectPhysicalDeviceFrom]
  | d :: rest, s, i, q => by
    rw [selectPhysicalDeviceFrom]
    cases hhead : deviceQueueFamily d with
    | some q0 =>
      constructor
      · intro h
        obtain ⟨hsi, hq0⟩ := Prod.mk.injEq .. ▸ (Option.some_inj.mp h)
        refine ⟨0, by simp, by omega, ?_, fun j hj => absurd hj (by omega)⟩
        rw [List.getD_cons_zero, hhead, hq0]
      · rintro ⟨k, hk, hi, hmatch, hbefore⟩
        rcases Nat.eq_zero_or_pos k with hk0 | hkpos
        · subst hk0
          rw [List.getD_cons_zero, hhead] at hmatch
          rw [Nat.add_zero] at hi
          rw [hi, Option.some_inj.mp hmatch]
        · have h0 := hbefore 0 hkpos
          rw [List.getD_cons_zero, hhead] at h0
          exact absurd h0 (by simp)
    | none =>
      rw [selectPhysicalDeviceFrom_some_iff rest (s + 1) i q]
      constructor
      · rintro ⟨k, hk, hi, hmatch, hbefore⟩
        refine ⟨k + 1, by simp only [List.length_cons]; omega, by omega,
          by rw [List.getD_cons_succ]; exact hmatch, ?_⟩
        intro j hj
        cases j with
        | zero =>
          rw [List.getD_cons_zero]
          exact hhead
        | succ j =>
          rw [List.getD_cons_succ]
          exact hbefore j (by omega)
      · rintro ⟨k, hk, hi, hmatch, hbefore⟩
        cases k with
        | zero =>
          rw [List.getD_cons_zero, hhead] at hmatch
          exact absurd hmatch (by simp)
        | succ k =>
          simp only [List.length_cons] at hk
          refine ⟨k, by omega, by omega, ?_, ?_⟩
          · rw [List.getD_cons_succ] at hmatch
            exact hmatch
          · intro j hj
            have := hbefore (j + 1) (by omega)
            rw [List.getD_cons_succ] at this
            exact this

lemma selectPhysicalDeviceFrom_none_iff :
    ∀ (devices : List PhysicalDevice) (s : Nat),
      selectPhysicalDeviceFrom devices s = none ↔
        ∀ k, k < devices.length →
          deviceQueueFamily (devices.getD k defaultPhysicalDevice) = none
  | [], s => by simp [selectPhysicalDeviceFrom]
  | d :: rest, s => by
    rw [selectPhysicalDeviceFrom]
    cases hhead : deviceQueueFamily d with
    | some q0 =>
      constructor
      · intro h
        exact absurd h (by simp)
      · intro hall
        exfalso
        have h0 := hall 0 (by simp)
        rw [List.getD_cons_zero, hhead] at h0
        exact absurd h0 (by simp)
    | none =>
      rw [selectPhysicalDeviceFrom_none_iff rest (s + 1)]
      constructor
      · intro hall k hk
        cases k with
        | zero =>
          rw [List.getD_cons_zero]
          exact hhead
        | succ k =>
          rw [List.getD_cons_succ]
          simp only [List.length_cons] at hk
          exact hall k (by omega)
      · intro hall k hk
        have := hall (k + 1) (by simp only [List.length_cons]; omega)
        rw [List.getD_cons_succ] at this
        exact this

/-- C5: device selection scans the enumerated devices in order,
rejects non-GPU types, picks for an accepted device the first
queue-family index supporting both graphics and transfer, and selects
the first device/family pair passing both filters; it fails (returns
none) exactly when every device is rejected. -/
theorem device_selection (devices : List PhysicalDevice) :
    (∀ i q, selectPhysicalDevice devices = some (i, q) ↔
        i < devices.length ∧
        isGpu (devices.getD i defaultPhysicalDevice).deviceType = true ∧
        FirstSuitableFamily (devices.getD i defaultPhysicalDevice).queueFamilyFlags q ∧
        ∀ j, j < i → DeviceRejected (devices.getD j defaultPhysicalDevice)) ∧
    (selectPhysicalDevice devices = none ↔
        ∀ j, j < devices.length → DeviceRejected (devices.getD j defaultPhysicalDevice)) := by
  constructor
  · intro i q
    rw [selectPhysicalDevice, selectPhysicalDeviceFrom_some_iff]
    constructor
    · rintro ⟨k, hk, hi, hmatch, hbefore⟩
      rw [Nat.zero_add] at hi
      subst hi
      obtain ⟨hg, hfam⟩ := (deviceQueueFamily_some_iff _ _).mp hmatch
      refine ⟨hk, hg, hfam, ?_⟩
      intro j hj
      exact (deviceQueueFamily_none_iff _).mp (hbefore j hj)
    · rintro ⟨hlen, hg, hfam, hbefore⟩
      refine ⟨i, hlen, by omega, (deviceQueueFamily_some_iff _ _).mpr ⟨hg, hfam⟩, ?_⟩
      intro j hj
      exact (deviceQueueFamily_none_iff _).mpr (hbefore j hj)
  · rw [selectPhysicalDevice, selectPhysicalDeviceFrom_none_iff]
    constructor
    · intro hall j hj
      exact (deviceQueueFamily_none_iff _).mp (hall j hj)
    · intro hall k hk
      exact (deviceQueueFamily_none_iff _).mpr (hall k hk)

/-- Witness for device_selection: a CPU device followed by a GPU whose
second family supports graphics and transfer; device 1 with family 1
is selected. -/
theorem device_selection_witness :
    selectPhysicalDevice
      [⟨.cpu, [5]⟩, ⟨.integratedGpu, [4, 7]⟩] = some (1, 1) := by
  refine ((device_selection _).1 1 1).2 ⟨by norm_num, by decide, ⟨by norm_num, ?_, ?_⟩, ?_⟩
  · exact ⟨by decide, by decide⟩
  · intro r hr
    interval_cases r
    rintro ⟨hbit, -⟩
    exact absurd hbit (by decide)
  · intro j hj
    interval_cases j
    left
    decide

/-- Image device-memory allocation size (src/main.c line 401): the
program passes the size reported by vkGetImageMemoryRequirements. -/
def imageMemoryAllocationSize (imageMemoryRequirementsSize : Nat) : Nat :=
  imageMemoryRequirementsSize

/-- Offset at which the image memory is bound (src/main.c line 412,
last argument of vkBindImageMemory). -/
def imageMemoryBindOffset : Nat := 0

/-- Readback-buffer device-memory allocation size (src/main.c line
503): the program passes pixelReadbackBufferSize, the value computed
from the format on line 463; the size reported by
vkGetBufferMemoryRequirements (queried on line 484) is available but
not used, which the ignored parameter records. -/
def bufferMemoryAllocationSize (_bufferMemoryRequirementsSize : Nat) : Nat :=
  pixelReadbackBufferSize .d24UnormS8Uint

/-- Offset at which the buffer memory is bound (src/main.c line 514,
last argument of vkBindBufferMemory). -/
def bufferMemoryBindOffset : Nat := 0

/-- C7 counterexample: if the driver reports a buffer memory
requirement of 1601 bytes (one more than the computed 1600 = 4 bytes
per texel times 20 times 20), the program still allocates 1600 bytes,
which is smaller than the reported requirement. -/
theorem buffer_allocation_counterexample :
    bufferMemoryAllocationSize 1601 = 1600 ∧
    bufferMemoryAllocationSize 1601 < 1601 := by decide

/-- C7 amended: the image memory allocation equals (hence is at least)
the reported image memory-requirements size and is bound at offset 0;
the buffer memory allocation equals the computed buffer size
(formatSize times width times height) regardless of the reported
buffer memory-requirements size, and is bound at offset 0. -/
theorem resource_memory_binding (reportedImageSize reportedBufferSize : Nat) :
    reportedImageSize ≤ imageMemoryAllocationSize reportedImageSize ∧
    imageMemoryBindOffset = 0 ∧
    bufferMemoryAllocationSize reportedBufferSize =
      formatSize .d24UnormS8Uint * IMAGE_WIDTH * IMAGE_HEIGHT ∧
    bufferMemoryBindOffset = 0 :=
  ⟨le_refl _, rfl, rfl, rfl⟩

/-- Whether the program keeps going or exits with a diagnostic after
looking at a status code. -/
inductive ProgramFlow
  | proceed
  | abortProgram
  deriving DecidableEq, Repr

/-- Handling of the vkBeginCommandBuffer result (src/main.c line 767):
the call's return value is discarded, so the program proceeds under
every status. -/
def afterBeginCommandBuffer (_code : VkResult) : ProgramFlow :=
  .proceed

/-- Handling of the vkEndCommandBuffer result (src/main.c lines
833-837): any non-success status prints a diagnostic and exits. -/
def afterEndCommandBuffer (code : VkResult) : ProgramFlow :=
  if code = .success then .proceed else .abortProgram

/-- C8 counterexample: a failing vkBeginCommandBuffer (here returning
VK_ERROR_OUT_OF_HOST_MEMORY) does not abort the program: the result is
never checked and recording proceeds. -/
theorem begin_recording_counterexample :
    afterBeginCommandBuffer VkResult.errorOutOfHostMemory = ProgramFlow.proceed ∧
    ProgramFlow.proceed ≠ ProgramFlow.abortProgram := by decide

/-- C8 amended: a non-success status from the end-recording call is
fatal and success proceeds, while the begin-recording call's status is
discarded and the program proceeds whatever it is. -/
theorem recording_failure_handling :
    (∀ code, afterBeginCommandBuffer code = ProgramFlow.proceed) ∧
    (∀ code, code ≠ VkResult.success →
      afterEndCommandBuffer code = ProgramFlow.abortProgram) ∧
    afterEndCommandBuffer VkResult.success = ProgramFlow.proceed := by
  refine ⟨fun code => rfl, ?_, rfl⟩
  intro code hcode
  rw [afterEndCommandBuffer, if_neg hcode]

/-- Witness for recording_failure_handling: a device-lost status from
end-recording aborts. -/
theorem recording_failure_handling_witness :
    afterEndCommandBuffer VkResult.errorDeviceLost = ProgramFlow.abortProgram :=
  recording_failure_handling.2.1 VkResult.errorDeviceLost (by decide)

/-- Pipeline bind points (vkCmdBindPipeline's second argument). -/
inductive PipelineBindPoint
  | graphics
  | compute
  deriving DecidableEq, Repr

/-- The pipeline stages named by the barrier on src/main.c lines
806-812. -/
inductive PipelineStage
  | lateFragmentTests
  | transfer
  deriving DecidableEq, Repr

/-- The memory access scopes named by the barrier on src/main.c lines
792-793. -/
inductive AccessFlag
  | depthStencilAttachmentWrite
  | transferRead
  deriving DecidableEq, Repr

/-- The image layouts the program mentions. -/
inductive ImageLayout
  | undefined
  | depthStencilAttachmentOptimal
  | transferSrcOptimal
  deriving DecidableEq, Repr

/-- Image aspects relevant to the copy on src/main.c line 822. -/
inductive ImageAspect
  | depth
  | stencil
  deriving DecidableEq, Repr

/-- Commands the program can record into the command buffer, with the
arguments the claims are about.  Indexed drawing (vkCmdDrawIndexed) is
listed so that the non-indexed draw is a meaningful statement. -/
inductive Command
  | beginRenderPass (clearDepth : ℚ) (clearStencil : Nat)
  | bindPipeline (bindPoint : PipelineBindPoint)
  | draw (vertexCount instanceCount firstVertex firstInstance : Nat)
  | drawIndexed (indexCount instanceCount firstIndex vertexOffset firstInstance : Nat)
  | endRenderPass
  | pipelineBarrier (srcStage dstStage : PipelineStage)
      (srcAccess dstAccess : AccessFlag)
      (oldLayout newLayout : ImageLayout)
  | copyImageToBuffer (aspect : ImageAspect) (srcLayout : ImageLayout)
  | endRecording
  deriving DecidableEq, Repr

/-- The sequence recorded between vkBeginCommandBuffer and
vkEndCommandBuffer (src/main.c lines 767-837), in source order: begin
the render pass with one clear value of depth 1.0 and stencil 0 (line
768), bind the graphics pipeline (line 778), draw 3 vertices and 1
instance (line 779), end the render pass (line 780), the image memory
barrier (lines 790-812), the depth-aspect copy to the buffer (lines
820-829), and the end of recording (line 833). -/
def recordedCommands : List Command :=
  [.beginRenderPass 1 0,
   .bindPipeline .graphics,
   .draw 3 1 0 0,
   .endRenderPass,
   .pipelineBarrier .lateFragmentTests .transfer
     .depthStencilAttachmentWrite .transferRead
     .depthStencilAttachmentOptimal .transferSrcOptimal,
   .copyImageToBuffer .depth .transferSrcOptimal,
   .endRecording]

/-- C6: the recorded command sequence is exactly, in order: begin the
render pass with a single clear value of depth 1.0 and stencil 0;
bind the graphics pipeline; one non-indexed draw of 3 vertices and 1
instance; end the render pass; one barrier from attachment-optimal to
transfer-source-optimal with access scopes depth/stencil-attachment
writes to transfer reads over stages late-fragment-tests to transfer;
copy the depth aspect of the image to the buffer; end recording. -/
theorem recorded_command_sequence :
    recordedCommands =
      [Command.beginRenderPass 1 0,
       Command.bindPipeline PipelineBindPoint.graphics,
       Command.draw 3 1 0 0,
       Command.endRenderPass,
       Command.pipelineBarrier PipelineStage.lateFragmentTests PipelineStage.transfer
         AccessFlag.depthStencilAttachmentWrite AccessFlag.transferRead
         ImageLayout.depthStencilAttachmentOptimal ImageLayout.transferSrcOptimal,
       Command.copyImageToBuffer ImageAspect.depth ImageLayout.transferSrcOptimal,
       Command.endRecording] ∧
    (∀ c ∈ recordedCommands,
      ∀ n i f v fi, c ≠ Command.drawIndexed n i f v fi) ∧
    recordedCommands.length = 7 := by
  refine ⟨rfl, ?_, rfl⟩
  intro c hc n i f v fi
  fin_cases hc <;> simp

/-- Witness for recorded_command_sequence: the end-render-pass element
of the sequence is not an indexed draw. -/
theorem recorded_command_sequence_witness :
    Command.endRenderPass ≠ Command.drawIndexed 3 1 0 0 0 :=
  recorded_command_sequence.2.1 Command.endRenderPass
    (by simp [recordedCommands]) 3 1 0 0 0

/-- The four decimal digits of n as printed by %.4f (most significant
first); exactly four characters by construction. -/
def pad4 (n : Nat) : String :=
  String.mk [Nat.digitChar (n / 1000 % 10), Nat.digitChar (n / 100 % 10),
             Nat.digitChar (n / 10 % 10), Nat.digitChar (n % 10)]

/-- The %.4f conversion of one value (src/main.c line 918), idealized
to exact rational arithmetic: round to the nearest 1/10000 (half up)
and print the whole part, a dot, and exactly four decimal digits. -/
def format4 (q : ℚ) : String :=
  let n : Int := ⌊q * 10000 + 1/2⌋
  toString (n / 10000) ++ "." ++ pad4 (n % 10000).toNat

/-- Row i of the output (the inner loop of src/main.c lines 916-921):
the values of row i in row-major order, each followed by one space. -/
def outputLine (depthData : Nat → ℚ) (i : Nat) : String :=
  String.join ((List.range IMAGE_WIDTH).map fun j =>
    format4 (depthData (IMAGE_WIDTH * i + j)) ++ " ")

/-- The lines of the output file (the outer loop of src/main.c lines
916-921), one line per image row. -/
def outputLines (depthData : Nat → ℚ) : List String :=
  (List.range IMAGE_HEIGHT).map (outputLine depthData)

/-- The full contents written to out.dat: each row's line followed by
the newline printed on src/main.c line 920. -/
def outputFileContents (depthData : Nat → ℚ) : String :=
  String.join ((outputLines depthData).map (fun line => line ++ "\n"))

lemma digitChar_isDigit : ∀ m, m < 10 → (Nat.digitChar m).isDigit = true := by
  decide

lemma pad4_digits (n : Nat) : ∀ c ∈ (pad4 n).data, c.isDigit = true := by
  intro c hc
  have hc2 : c ∈ [Nat.digitChar (n / 1000 % 10), Nat.digitChar (n / 100 % 10),
                  Nat.digitChar (n / 10 % 10), Nat.digitChar (n % 10)] := hc
  fin_cases hc2 <;> exact digitChar_isDigit _ (Nat.mod_lt _ (by norm_num))

/-- C9: the persisted output has IMAGE_HEIGHT lines; line i consists
of the IMAGE_WIDTH values of row i taken at row-major indices
IMAGE_WIDTH * i + j, each formatted and followed by a space; every
formatted value ends in a dot followed by exactly four decimal
digits; and the file is those lines each terminated by a newline. -/
theorem output_grid_format (depthData : Nat → ℚ) :
    (outputLines depthData).length = IMAGE_HEIGHT ∧
    (∀ i, i < IMAGE_HEIGHT →
      (outputLines depthData)[i]? =
        some (String.join ((List.range IMAGE_WIDTH).map fun j =>
          format4 (depthData (IMAGE_WIDTH * i + j)) ++ " "))) ∧
    (∀ q : ℚ, ∃ whole frac,
      format4 q = whole ++ "." ++ pad4 frac ∧ (pad4 frac).length = 4 ∧
      ∀ c ∈ (pad4 frac).data, c.isDigit = true) ∧
    outputFileContents depthData =
      String.join ((outputLines depthData).map (fun line => line ++ "\n")) := by
  refine ⟨by simp [outputLines], ?_, ?_, rfl⟩
  · intro i hi
    rw [outputLines, List.getElem?_map, List.getElem?_range]
    · rfl
    · exact hi
  · intro q
    exact ⟨toString ((⌊q * 10000 + 1/2⌋ : Int) / 10000),
      ((⌊q * 10000 + 1/2⌋ : Int) % 10000).toNat, rfl, rfl, pad4_digits _⟩

/-- Witness for output_grid_format: line 0 of the all-zero grid. -/
theorem output_grid_format_witness :
    (outputLines fun _ => (0 : ℚ))[0]? =
      some (String.join ((List.range IMAGE_WIDTH).map fun j =>
        format4 ((fun _ => (0 : ℚ)) (IMAGE_WIDTH * 0 + j)) ++ " ")) :=
  (output_grid_format fun _ => 0).2.1 0 (by decide)

end VulkanIntro
